import Mathlib

/-!
Verification of the Stellaris save-file parser (rust_parser: parser.rs,
lib.rs, file_io.rs) against its natural-language specification.

The parser is a nom-combinator recursive-descent parser over string
slices.  We shallowly embed it over `List Char`:

* nom's `IResult` is embedded as `PR α`, with `.ok remainder value` for a
  successful parse, `.err` for a recoverable `Err::Error` (the only kind
  `alt` and `separated_list` recover from) and `.fatal` for
  `Err::Failure` / `Err::Incomplete`, which abort every enclosing
  alternation exactly as in nom.
* Rust `f64` values are represented by the source slice recognized by
  nom's `double`; the actual IEEE value is Rust's `str::parse::<f64>` of
  that slice, which succeeds on every slice the recognizer can produce.
  NaN-ness of the resulting value is decided by `is_nan_slice`.
* The mutually recursive value/list/map parsers are embedded with an
  explicit fuel parameter (the Rust code recurses on the shrinking input;
  the top-level entry points supply fuel `4 * length + 16`, far more than
  any input can consume since every recursion step consumes input).
* Rust's `HashMap` is embedded as an association list with unique keys;
  `hm_insert` removes any previous binding, mirroring the
  `remove`/`insert` discipline of `parse_map_inner`.  Iteration order of
  a `HashMap` is not significant, so map claims are stated via lookups
  or via the canonical first-insertion order produced by the embedding.
-/

namespace StellarisParser

/-- Embedding of nom's `IResult`: `.ok rest a` is `Ok((rest, a))`, `.err`
is `Err(Err::Error(..))`, `.fatal` covers `Err(Err::Failure(..))` and
`Err(Err::Incomplete(..))`, both of which abort alternations. -/
inductive PR (α : Type) where
  | ok : List Char → α → PR α
  | err : PR α
  | fatal : PR α

/-- nom's multispace character class: ASCII space, tab, carriage return,
line feed (used by `multispace0` / `multispace1`). -/
def isMS (c : Char) : Bool :=
  c == ' ' || c == '\t' || c == '\r' || c == '\n'

/-- Rust's `char::is_whitespace` (Unicode White_Space property), used by
`parse_file` to test the remainder. -/
def rust_is_whitespace (c : Char) : Bool :=
  c == '\t' || c == '\n' || c == '\u000B' || c == '\u000C' || c == '\r' ||
  c == ' ' || c == '\u0085' || c == ' ' || c == ' ' ||
  (0x2000 ≤ c.toNat && c.toNat ≤ 0x200A) ||
  c == ' ' || c == ' ' || c == ' ' || c == ' ' || c == '　'

/-- nom `multispace0`: drop any run of leading ASCII whitespace. -/
def ws0 (s : List Char) : List Char := s.dropWhile isMS

/-- nom `multispace1`: at least one ASCII whitespace character, then any
further run. -/
def ws1 (s : List Char) : PR Unit :=
  match s with
  | c :: _ => if isMS c then .ok (ws0 s) () else .err
  | [] => .err

/-- nom `digit1`: one or more ASCII decimal digits, returning the run. -/
def digit1 (s : List Char) : PR (List Char) :=
  let d := s.takeWhile (·.isDigit)
  if d.isEmpty then .err else .ok (s.dropWhile (·.isDigit)) d

/-- `_is_valid_unquoted_str_char` from parser.rs: not Rust-whitespace and
not one of the forbidden punctuation characters. -/
def is_valid_unquoted_str_char (c : Char) : Bool :=
  !(rust_is_whitespace c) &&
  !(['"', '=', '{', '}', '<', '>', '[', ']', '#', '$', '|'].contains c)

/-- `parse_unquoted_str`: leading `multispace0`, then `take_while1` of
valid unquoted characters. -/
def parse_unquoted_str (s : List Char) : PR (List Char) :=
  let t := ws0 s
  let tok := t.takeWhile is_valid_unquoted_str_char
  if tok.isEmpty then .err else .ok (t.dropWhile is_valid_unquoted_str_char) tok

/-- Outcome of the body loop of nom's (streaming) `escaped` combinator:
either stop after consuming `n` characters, or fail. -/
inductive EscRes where
  | stop : Nat → EscRes
  | eerr : EscRes
  | efatal : EscRes

/-- The loop of nom's `bytes::streaming::escaped(none_of("\"\\"), '\\',
one_of("\"\\"))` as used by `parse_str`.  A normal character is anything
but quote or backslash; a backslash must be followed by quote or
backslash.  Reaching the end of input while still consuming yields
`Incomplete` (streaming semantics), embedded as `.efatal`; an escapable
failure after a backslash is `Err::Error`; hitting a bare quote stops. -/
def esc_go : List Char → EscRes
  | [] => .efatal
  | c :: rest =>
    if c != '"' && c != '\\' then
      match rest with
      | [] => .efatal
      | _ :: _ =>
        match esc_go rest with
        | .stop n => .stop (n + 1)
        | e => e
    else if c = '\\' then
      match rest with
      | [] => .efatal
      | d :: rest2 =>
        if d == '"' || d == '\\' then
          match rest2 with
          | [] => .efatal
          | _ :: _ =>
            match esc_go rest2 with
            | .stop n => .stop (n + 2)
            | e => e
        else .eerr
    else .stop 0

/-- nom's `escaped` applied to the quoted-string interior: a zero-length
match (input starts with the closing quote immediately) is
`ErrorKind::Escaped`. -/
def escaped_content (s : List Char) : PR (List Char) :=
  match esc_go s with
  | .stop 0 => .err
  | .stop n => .ok (s.drop n) (s.take n)
  | .eerr => .err
  | .efatal => .fatal

/-- `parse_str`: leading `multispace0`, then a quote, the raw escaped
contents, and a closing quote.  The captured slice is the raw text
between the quotes, without un-escaping. -/
def parse_str (s : List Char) : PR (List Char) :=
  match ws0 s with
  | c :: rest =>
    if c = '"' then
      match escaped_content rest with
      | .ok rest2 content =>
        match rest2 with
        | c2 :: rest3 => if c2 = '"' then .ok rest3 content else .err
        | [] => .err
      | .err => .err
      | .fatal => .fatal
    else .err
  | [] => .err

/-- `parse_date_str`: `recognize` of digit-run, dot, digit-run, dot,
digit-run.  The digit runs use `take_while` (may be empty) and, notably,
there is no leading `multispace0` in the source. -/
def parse_date_str (s : List Char) : PR (List Char) :=
  let d1 := s.takeWhile (·.isDigit)
  match s.dropWhile (·.isDigit) with
  | '.' :: r2 =>
    let d2 := r2.takeWhile (·.isDigit)
    match r2.dropWhile (·.isDigit) with
    | '.' :: r4 =>
      let d3 := r4.takeWhile (·.isDigit)
      .ok (r4.dropWhile (·.isDigit)) (d1 ++ '.' :: (d2 ++ '.' :: d3))
    | _ => .err
  | _ => .err

/-- nom 7's `recognize_float`: optional sign; then either digits with an
optional fractional part, or a dot followed by digits; then an optional
exponent whose digits are mandatory once `e`/`E` was consumed
(`cut(digit1)` — its failure is `Err::Failure`, embedded `.fatal`). -/
def recognize_float (s : List Char) : PR (List Char) :=
  let r1 := match s with
    | c :: t => if c == '+' || c == '-' then t else s
    | [] => s
  let mantissa : Option (List Char) :=
    match digit1 r1 with
    | .ok r2 _ =>
      some (match r2 with
        | '.' :: t => t.dropWhile (·.isDigit)
        | _ => r2)
    | _ =>
      match r1 with
      | '.' :: t =>
        match digit1 t with
        | .ok r _ => some r
        | _ => none
      | _ => none
  match mantissa with
  | none => .err
  | some r3 =>
    match r3 with
    | e :: t =>
      if e == 'e' || e == 'E' then
        let t2 := match t with
          | c :: u => if c == '+' || c == '-' then u else t
          | [] => t
        match digit1 t2 with
        | .ok r4 _ => .ok r4 (s.take (s.length - r4.length))
        | _ => .fatal
      else .ok r3 (s.take (s.length - r3.length))
    | [] => .ok r3 (s.take (s.length - r3.length))

/-- ASCII-case-insensitive prefix test, as in nom's `tag_no_case` with a
lowercase pattern. -/
def starts_lower : List Char → List Char → Bool
  | [], _ => true
  | _ :: _, [] => false
  | p :: ps, c :: cs => c.toLower == p && starts_lower ps cs

/-- nom 7's `recognize_float_or_exceptions`, the recognizer inside
`double`: `recognize_float`, or else the case-insensitive literals
`nan`, `inf`, `infinity` (tried in that order).  A `Failure` from the
float branch aborts the alternation.  `recognize(double)` from parser.rs
is this recognizer: Rust's `str::parse::<f64>` succeeds on every slice
it can produce, so `double`'s own conversion never fails. -/
def recognize_double (s : List Char) : PR (List Char) :=
  match recognize_float s with
  | .ok r sl => .ok r sl
  | .fatal => .fatal
  | .err =>
    if starts_lower "nan".data s then .ok (s.drop 3) (s.take 3)
    else if starts_lower "inf".data s then .ok (s.drop 3) (s.take 3)
    else if starts_lower "infinity".data s then .ok (s.drop 8) (s.take 8)
    else .err

/-- Rust `str::parse::<i64>`: optional sign, then one or more ASCII
digits and nothing else, rejecting values outside the i64 range. -/
def rust_parse_i64 (cs : List Char) : Option ℤ :=
  let (sign, ds) : ℤ × List Char := match cs with
    | '+' :: t => (1, t)
    | '-' :: t => (-1, t)
    | _ => (1, cs)
  if ds.isEmpty || !ds.all (·.isDigit) then none
  else
    let v : ℤ := sign * (ds.foldl (fun a c => 10 * a + (c.toNat - '0'.toNat)) 0 : ℕ)
    if -(2 ^ 63) ≤ v ∧ v ≤ 2 ^ 63 - 1 then some v else none

/-- `parse_int`: leading `multispace0`, then
`map_res(recognize(double), str::parse::<i64>)`. -/
def parse_int (s : List Char) : PR ℤ :=
  let t := ws0 s
  match recognize_double t with
  | .ok r sl =>
    match rust_parse_i64 sl with
    | some n => .ok r n
    | none => .err
  | .err => .err
  | .fatal => .fatal

/-- `parse_float`: leading `multispace0`, then `not(tag("nan"))` — the
parse fails if the input begins with the lowercase literal `nan` — then
the float recognizer.  The result is the recognized slice (the Rust code
stores `str::parse::<f64>` of it, which always succeeds there). -/
def parse_float (s : List Char) : PR (List Char) :=
  let t := ws0 s
  match t with
  | 'n' :: 'a' :: 'n' :: _ => .err
  | _ =>
    match recognize_double t with
    | .ok r sl => .ok r sl
    | .err => .err
    | .fatal => .fatal

/-- `parse_map_key_value_separator`:
`delimited(multispace0, tag("="), multispace0)`.  The `=` tag is
unconditional in the source. -/
def parse_map_key_value_separator (s : List Char) : PR (List Char) :=
  match ws0 s with
  | c :: rest => if c = '=' then .ok (ws0 rest) ['='] else .err
  | [] => .err

/-- `parse_color`: `rgb` or `hsv`, a brace, three floats, a closing
brace.  Each float goes through `parse_float` (and hence the `nan`
guard); payloads are the recognized slices. -/
def parse_color (s : List Char) : PR (String × String × String × String) :=
  let t := ws0 s
  let space : Option (String × List Char) :=
    match t with
    | 'r' :: 'g' :: 'b' :: r => some ("rgb", r)
    | 'h' :: 's' :: 'v' :: r => some ("hsv", r)
    | _ => none
  match space with
  | none => .err
  | some (sp, r) =>
    match ws0 r with
    | '{' :: r2 =>
      match parse_float r2 with
      | .ok r3 f1 =>
        match parse_float r3 with
        | .ok r4 f2 =>
          match parse_float r4 with
          | .ok r5 f3 =>
            match ws0 r5 with
            | '}' :: r6 => .ok r6 (sp, String.mk f1, String.mk f2, String.mk f3)
            | _ => .err
          | .err => .err
          | .fatal => .fatal
        | .err => .err
        | .fatal => .fatal
      | .err => .err
      | .fatal => .fatal
    | _ => .err

/-- The `Value` enum from parser.rs: the sole tree node type.  `float`
and the `color` components carry the recognized source slice standing
for the Rust `f64` (see the header comment). -/
inductive Value where
  | str : String → Value
  | int : ℤ → Value
  | float : String → Value
  | list : List Value → Value
  | map : List (String × Value) → Value
  | color : String → String → String → String → Value

/-- Lookup in the association-list embedding of `HashMap`. -/
def hm_lookup (hm : List (String × Value)) (k : String) : Option Value :=
  match hm with
  | [] => none
  | (k', v) :: t => if k' = k then some v else hm_lookup t k

/-- Remove every binding of a key (the embedding keeps keys unique, so
at most one exists). -/
def hm_erase : List (String × Value) → String → List (String × Value)
  | [], _ => []
  | (k', v) :: t, k => if k' = k then hm_erase t k else (k', v) :: hm_erase t k

/-- `HashMap::insert` after a `remove`: bind the key, placing fresh keys
in first-insertion order (HashMap iteration order is not significant). -/
def hm_insert (hm : List (String × Value)) (k : String) (v : Value) :
    List (String × Value) :=
  hm_erase hm k ++ [(k, v)]

/-- One step of the repeated-key folding loop in `parse_map_inner`:
`hm.remove(key)` and then the three-way match on the old value, with the
`handled_nested_list_keys` set deciding whether an incoming list gets
wrapped into a nested list or appended. -/
def fold_step (hm : List (String × Value)) (handled : List String)
    (k : String) (v : Value) : List (String × Value) × List String :=
  match hm_lookup hm k with
  | none => (hm_insert hm k v, handled)
  | some (Value.list vec) =>
    match v, handled.contains k with
    | Value.list nv, false =>
      (hm_insert hm k (.list [.list vec, .list nv]), k :: handled)
    | v', _ => (hm_insert hm k (.list (vec ++ [v'])), handled)
  | some old => (hm_insert hm k (.list [old, v]), handled)

/-- The repeated-key folding pass of `parse_map_inner`: walk the parsed
key/value pairs left to right starting from an empty map and an empty
`handled_nested_list_keys` set. -/
def fold_kv_list (kvs : List (String × Value)) : List (String × Value) :=
  (kvs.foldl (fun st p => fold_step st.1 st.2 p.1 p.2) ([], [])).1

mutual

/-- `parse_value`: the eight-way `alt` — date, int, float, quoted
string, color, unquoted string, list, map — committing to the first
alternative that succeeds and aborting on a `Failure`/`Incomplete`. -/
def parse_valueF : Nat → List Char → PR Value
  | 0, _ => .err
  | fuel + 1, s =>
    match parse_date_str s with
    | .ok r sl => .ok r (.str (String.mk sl))
    | .fatal => .fatal
    | .err =>
      match parse_int s with
      | .ok r n => .ok r (.int n)
      | .fatal => .fatal
      | .err =>
        match parse_float s with
        | .ok r sl => .ok r (.float (String.mk sl))
        | .fatal => .fatal
        | .err =>
          match parse_str s with
          | .ok r sl => .ok r (.str (String.mk sl))
          | .fatal => .fatal
          | .err =>
            match parse_color s with
            | .ok r c => .ok r (.color c.1 c.2.1 c.2.2.1 c.2.2.2)
            | .fatal => .fatal
            | .err =>
              match parse_unquoted_str s with
              | .ok r sl => .ok r (.str (String.mk sl))
              | .fatal => .fatal
              | .err =>
                match parse_listF fuel s with
                | .ok r vs => .ok r (.list vs)
                | .fatal => .fatal
                | .err =>
                  match parse_mapF fuel s with
                  | .ok r hm => .ok r (.map hm)
                  | .fatal => .fatal
                  | .err => .err

/-- `parse_list`: a brace (with no leading whitespace!), `multispace0`,
the whitespace-separated values, `multispace0`, a closing brace. -/
def parse_listF : Nat → List Char → PR (List Value)
  | 0, _ => .err
  | fuel + 1, s =>
    match s with
    | '{' :: r1 =>
      match sep_values0F fuel (ws0 r1) with
      | .ok r2 vs =>
        match ws0 r2 with
        | '}' :: r3 => .ok r3 vs
        | _ => .err
      | .err => .err
      | .fatal => .fatal
    | _ => .err

/-- `parse_list_inner`: `separated_list0(multispace1, parse_value)`. -/
def sep_values0F : Nat → List Char → PR (List Value)
  | 0, _ => .err
  | fuel + 1, s =>
    match parse_valueF fuel s with
    | .err => .ok s []
    | .fatal => .fatal
    | .ok r v =>
      match sep_values_loopF fuel r with
      | .ok r2 vs => .ok r2 (v :: vs)
      | e => e

/-- The separator/element loop shared by nom's `separated_list0/1`: try
`multispace1` then another value, backtracking to before the separator
when either fails recoverably, and rejecting a zero-consumption round
(nom's infinite-loop guard). -/
def sep_values_loopF : Nat → List Char → PR (List Value)
  | 0, _ => .err
  | fuel + 1, s =>
    match ws1 s with
    | .err => .ok s []
    | .fatal => .fatal
    | .ok r1 _ =>
      match parse_valueF fuel r1 with
      | .err => .ok s []
      | .fatal => .fatal
      | .ok r2 v =>
        if r2.length = s.length then .err
        else
          match sep_values_loopF fuel r2 with
          | .ok r3 vs => .ok r3 (v :: vs)
          | e => e

/-- `parse_map`: `multispace0`, a brace, the folded map body, a closing
brace (after `multispace0`). -/
def parse_mapF : Nat → List Char → PR (List (String × Value))
  | 0, _ => .err
  | fuel + 1, s =>
    match ws0 s with
    | '{' :: r1 =>
      match parse_map_innerF fuel r1 with
      | .ok r2 hm =>
        match ws0 r2 with
        | '}' :: r3 => .ok r3 hm
        | _ => .err
      | .err => .err
      | .fatal => .fatal
    | _ => .err

/-- `parse_map_inner`: parse the key/value pair list, then fold repeated
keys (the `handled_nested_list_keys` pass). -/
def parse_map_innerF : Nat → List Char → PR (List (String × Value))
  | 0, _ => .err
  | fuel + 1, s =>
    match parse_map_kv_listF fuel s with
    | .ok r kvs => .ok r (fold_kv_list kvs)
    | .err => .err
    | .fatal => .fatal

/-- `parse_map_kv_list`: `delimited(multispace0,
separated_list1(multispace1, parse_map_key_value_pair), multispace0)`. -/
def parse_map_kv_listF : Nat → List Char → PR (List (String × Value))
  | 0, _ => .err
  | fuel + 1, s =>
    match parse_map_key_value_pairF fuel (ws0 s) with
    | .err => .err
    | .fatal => .fatal
    | .ok r p =>
      match sep_pairs_loopF fuel r with
      | .ok r2 ps => .ok (ws0 r2) (p :: ps)
      | .err => .err
      | .fatal => .fatal

/-- The `separated_list1(multispace1, parse_map_key_value_pair)` loop,
with the same backtracking behaviour as `sep_values_loopF`. -/
def sep_pairs_loopF : Nat → List Char → PR (List (String × Value))
  | 0, _ => .err
  | fuel + 1, s =>
    match ws1 s with
    | .err => .ok s []
    | .fatal => .fatal
    | .ok r1 _ =>
      match parse_map_key_value_pairF fuel r1 with
      | .err => .ok s []
      | .fatal => .fatal
      | .ok r2 p =>
        if r2.length = s.length then .err
        else
          match sep_pairs_loopF fuel r2 with
          | .ok r3 ps => .ok r3 (p :: ps)
          | e => e

/-- `parse_map_key_value_pair`: a key (quoted or unquoted), the `=`
separator, then either the skip-key form (another unquoted identifier
and separator, discarded, then a value) or a plain value. -/
def parse_map_key_value_pairF : Nat → List Char → PR (String × Value)
  | 0, _ => .err
  | fuel + 1, s =>
    match
      (match parse_str s with
       | .err => parse_unquoted_str s
       | r => r) with
    | .err => .err
    | .fatal => .fatal
    | .ok r1 key =>
      match parse_map_key_value_separator r1 with
      | .err => .err
      | .fatal => .fatal
      | .ok r2 _ =>
        match
          (match parse_unquoted_str r2 with
           | .ok r3 _ =>
             match parse_map_key_value_separator r3 with
             | .ok r4 _ => parse_valueF fuel r4
             | .err => .err
             | .fatal => .fatal
           | .err => .err
           | .fatal => .fatal) with
        | .ok r5 v => .ok r5 (String.mk key, v)
        | .fatal => .fatal
        | .err =>
          match parse_valueF fuel r2 with
          | .ok r5 v => .ok r5 (String.mk key, v)
          | .err => .err
          | .fatal => .fatal

end

/-- Fuel supplied by the entry points: every recursion step of the Rust
parser consumes input, so this bound is never reached. -/
def file_fuel (s : List Char) : Nat := 4 * s.length + 16

/-- Entry point used by `parse_file`. -/
def parse_map_inner (s : List Char) : PR (List (String × Value)) :=
  parse_map_innerF (file_fuel s) s

/-- `parse_value` on a whole string (used by the parser's tests). -/
def parse_value (s : String) : PR Value :=
  parse_valueF (file_fuel s.data) s.data

/-- `parse_map_key_value_pair` on a whole string. -/
def parse_map_key_value_pair (s : String) : PR (String × Value) :=
  parse_map_key_value_pairF (file_fuel s.data) s.data

/-- `parse_file`: parse the document as a map body; succeed only when
the remainder is entirely Rust whitespace, wrapping the body in a Map;
a non-whitespace remainder is reported as the error, any other failure
as the fixed string. -/
def parse_file (s : String) : Except String Value :=
  match parse_map_inner s.data with
  | .ok rem hm =>
    if rem.all rust_is_whitespace then .ok (.map hm)
    else .error (String.mk rem)
  | _ => .error "Parsing failed"

/-- The `SaveFile` record from file_io.rs. -/
structure SaveFile where
  filename : String
  game_id : String
  meta : String
  gamestate : String

/-- `ParsedSaveFile` from parser.rs.  The `parsed_time : Instant` field
(a wall-clock timestamp taken at return) is not modelled. -/
structure ParsedSaveFile where
  gamestate : Value
  meta : Value
  game_id : String

/-- `parse_save`: parse `meta`, then `gamestate`; on either failure
return the corresponding fixed message (discarding the document parser's
own error), otherwise assemble the `ParsedSaveFile`. -/
def parse_save (sf : SaveFile) : Except String ParsedSaveFile :=
  match parse_file sf.meta with
  | .error _ => .error "Failed to parse save metadata"
  | .ok meta =>
    match parse_file sf.gamestate with
    | .error _ => .error "Failed to parse save gamestate"
    | .ok gamestate => .ok ⟨gamestate, meta, sf.game_id⟩

/-- Does the recognized slice of a float parse to an IEEE NaN under
Rust's `str::parse::<f64>`?  That happens exactly for an optional sign
followed by case-insensitive `nan` (overflow gives infinity, never
NaN). -/
def is_nan_slice (s : String) : Bool :=
  let t := s.data.map Char.toLower
  t == "nan".data || t == "+nan".data || t == "-nan".data

mutual

/-- Does a parsed tree contain a Float whose value is NaN? -/
def has_nan_float : Value → Bool
  | .float sl => is_nan_slice sl
  | .list vs => has_nan_float_list vs
  | .map es => has_nan_float_entries es
  | _ => false

def has_nan_float_list : List Value → Bool
  | [] => false
  | v :: vs => has_nan_float v || has_nan_float_list vs

def has_nan_float_entries : List (String × Value) → Bool
  | [] => false
  | (_, v) :: es => has_nan_float v || has_nan_float_entries es

end

/-- The repeated-key rule as the specification words it, for one pair:
given the key's current stored value and its already-nested flag, fold
in the next value `v`.  No stored value: store `v`, clear the flag.
Stored non-List: replace by the two-element List, flag untouched.
Stored List: wrap both lists when `v` is a List and the flag is still
clear (setting the flag), otherwise append `v`. -/
def spec_fold_step : Option Value × Bool → Value → Option Value × Bool
  | (none, _), v => (some v, false)
  | (some s, flag), v =>
    match s with
    | Value.list elems =>
      match v, flag with
      | Value.list _, false => (some (.list [s, v]), true)
      | _, _ => (some (.list (elems ++ [v])), flag)
    | _ => (some (.list [s, v]), flag)

/-- Apply `spec_fold_step` to one key of the per-key state table. -/
def spec_update (f : String → Option Value × Bool) (p : String × Value) :
    String → Option Value × Bool :=
  fun k => if k = p.1 then spec_fold_step (f k) p.2 else f k

/-- The specification's left-to-right walk over a map body's pair
sequence: per key, the stored value and the already-nested flag,
initially absent/false. -/
def spec_fold (kvs : List (String × Value)) : String → Option Value × Bool :=
  kvs.foldl spec_update (fun _ => (none, false))

/-- The coupling between the code state of the folding loop (map plus
`handled_nested_list_keys` set) and the specification state (per-key
stored value and flag). -/
def FoldInv (hm : List (String × Value)) (handled : List String)
    (f : String → Option Value × Bool) : Prop :=
  ∀ k, hm_lookup hm k = (f k).1 ∧ handled.contains k = (f k).2 ∧
    ((f k).1 = none → (f k).2 = false)

/-- Is `pat` a prefix of `s`? (exact, case-sensitive). -/
def starts_with : List Char → List Char → Bool
  | [], _ => true
  | _ :: _, [] => false
  | p :: ps, c :: cs => p == c && starts_with ps cs

/-- Does `pat` occur as a contiguous substring of `s`? -/
def occurs_in (pat : List Char) : List Char → Bool
  | [] => pat.isEmpty
  | c :: cs => starts_with pat (c :: cs) || occurs_in pat cs

/-! ## Association-list lemmas for the repeated-key folder -/

theorem hm_lookup_insert_self (hm : List (String × Value)) (k : String) (v : Value) :
    hm_lookup (hm_insert hm k v) k = some v := by
  induction hm with
  | nil => simp [hm_insert, hm_erase, hm_lookup]
  | cons p t ih =>
    obtain ⟨k2, v2⟩ := p
    by_cases h : k2 = k
    · simpa [hm_insert, hm_erase, h] using ih
    · simp only [hm_insert, hm_erase, h, if_false] at ih ⊢
      simpa [hm_lookup, h] using ih

theorem hm_lookup_insert_ne (hm : List (String × Value)) (k : String) (v : Value)
    (k' : String) (h : k' ≠ k) :
    hm_lookup (hm_insert hm k v) k' = hm_lookup hm k' := by
  induction hm with
  | nil => simp [hm_insert, hm_erase, hm_lookup, Ne.symm h]
  | cons p t ih =>
    obtain ⟨k2, v2⟩ := p
    by_cases h2 : k2 = k
    · subst h2
      have he : hm_insert ((k2, v2) :: t) k2 v = hm_insert t k2 v := by
        simp [hm_insert, hm_erase]
      rw [he, ih]
      simp [hm_lookup, Ne.symm h]
    · simp only [hm_insert, hm_erase, h2, if_false] at ih ⊢
      by_cases h3 : k2 = k'
      · simp [hm_lookup, h3]
      · simpa [hm_lookup, h3] using ih

/-- One folding step of the code preserves the coupling with one
specification step on the same key. -/
theorem fold_step_inv {hm : List (String × Value)} {handled : List String}
    {f : String → Option Value × Bool} (hInv : FoldInv hm handled f)
    (k : String) (v : Value) :
    FoldInv (fold_step hm handled k v).1 (fold_step hm handled k v).2
      (spec_update f (k, v)) := by
  intro k'
  by_cases hk : k' = k
  · subst hk
    obtain ⟨h1, h2, h3⟩ := hInv k'
    rcases hfq : f k' with ⟨st, flag⟩
    rw [hfq] at h1 h2 h3
    simp only at h1 h2 h3
    simp only [List.elem_eq_mem] at h2
    cases st with
    | none =>
      have hflag : flag = false := h3 rfl
      subst hflag
      replace h2 : k' ∉ handled := by simpa using h2
      simp [fold_step, spec_update, spec_fold_step, h1, hfq,
            hm_lookup_insert_self, h2]
    | some sv =>
      cases sv with
      | list elems =>
        cases v with
        | list nv =>
          cases flag with
          | false =>
            replace h2 : k' ∉ handled := by simpa using h2
            simp [fold_step, spec_update, spec_fold_step, h1, hfq, h2,
                  hm_lookup_insert_self]
          | true =>
            replace h2 : k' ∈ handled := by simpa using h2
            simp [fold_step, spec_update, spec_fold_step, h1, hfq, h2,
                  hm_lookup_insert_self]
        | str s => simp [fold_step, spec_update, spec_fold_step, h1, hfq, h2, hm_lookup_insert_self]
        | int n => simp [fold_step, spec_update, spec_fold_step, h1, hfq, h2, hm_lookup_insert_self]
        | float s => simp [fold_step, spec_update, spec_fold_step, h1, hfq, h2, hm_lookup_insert_self]
        | map m => simp [fold_step, spec_update, spec_fold_step, h1, hfq, h2, hm_lookup_insert_self]
        | color a b c d => simp [fold_step, spec_update, spec_fold_step, h1, hfq, h2, hm_lookup_insert_self]
      | str s => simp [fold_step, spec_update, spec_fold_step, h1, hfq, h2, hm_lookup_insert_self]
      | int n => simp [fold_step, spec_update, spec_fold_step, h1, hfq, h2, hm_lookup_insert_self]
      | float s => simp [fold_step, spec_update, spec_fold_step, h1, hfq, h2, hm_lookup_insert_self]
      | map m => simp [fold_step, spec_update, spec_fold_step, h1, hfq, h2, hm_lookup_insert_self]
      | color a b c d => simp [fold_step, spec_update, spec_fold_step, h1, hfq, h2, hm_lookup_insert_self]
  · obtain ⟨h1, h2, h3⟩ := hInv k'
    simp only [List.elem_eq_mem] at h2
    unfold fold_step
    cases hs : hm_lookup hm k with
    | none =>
      simp [spec_update, hk, hm_lookup_insert_ne _ _ _ _ hk, h1, h2]; exact h3
    | some sv =>
      cases sv with
      | list elems =>
        cases v with
        | list nv =>
          cases hc : handled.contains k with
          | false =>
            replace hc : k ∉ handled := by simpa using hc
            simp [spec_update, hk, hm_lookup_insert_ne _ _ _ _ hk, h1, h2, hc]; exact h3
          | true =>
            replace hc : k ∈ handled := by simpa using hc
            simp [spec_update, hk, hm_lookup_insert_ne _ _ _ _ hk, h1, h2, hc]; exact h3
        | str s => simp [spec_update, hk, hm_lookup_insert_ne _ _ _ _ hk, h1, h2]; exact h3
        | int n => simp [spec_update, hk, hm_lookup_insert_ne _ _ _ _ hk, h1, h2]; exact h3
        | float s => simp [spec_update, hk, hm_lookup_insert_ne _ _ _ _ hk, h1, h2]; exact h3
        | map m => simp [spec_update, hk, hm_lookup_insert_ne _ _ _ _ hk, h1, h2]; exact h3
        | color a b c d => simp [spec_update, hk, hm_lookup_insert_ne _ _ _ _ hk, h1, h2]; exact h3
      | str s => simp [spec_update, hk, hm_lookup_insert_ne _ _ _ _ hk, h1, h2]; exact h3
      | int n => simp [spec_update, hk, hm_lookup_insert_ne _ _ _ _ hk, h1, h2]; exact h3
      | float s => simp [spec_update, hk, hm_lookup_insert_ne _ _ _ _ hk, h1, h2]; exact h3
      | map m => simp [spec_update, hk, hm_lookup_insert_ne _ _ _ _ hk, h1, h2]; exact h3
      | color a b c d => simp [spec_update, hk, hm_lookup_insert_ne _ _ _ _ hk, h1, h2]; exact h3

/-- Walking any suffix of the pair sequence preserves the coupling. -/
theorem fold_go (kvs : List (String × Value)) :
    ∀ hm handled f, FoldInv hm handled f →
      FoldInv ((kvs.foldl (fun st p => fold_step st.1 st.2 p.1 p.2) (hm, handled)).1)
              ((kvs.foldl (fun st p => fold_step st.1 st.2 p.1 p.2) (hm, handled)).2)
              (kvs.foldl spec_update f) := by
  induction kvs with
  | nil => intro hm handled f h; simpa using h
  | cons p t ih =>
    intro hm handled f h
    simp only [List.foldl_cons]
    exact ih (fold_step hm handled p.1 p.2).1 (fold_step hm handled p.1 p.2).2
      (spec_update f p) (fold_step_inv h p.1 p.2)

/-- The folding pass of `parse_map_inner` agrees, key by key, with the
specification's per-key walk. -/
theorem fold_refines_spec (kvs : List (String × Value)) (k : String) :
    hm_lookup (fold_kv_list kvs) k = (spec_fold kvs k).1 := by
  have init : FoldInv [] [] (fun _ => (none, false)) := by
    intro k'; simp [hm_lookup, List.contains]
  exact (fold_go kvs [] [] (fun _ => (none, false)) init k).1

/-! ## Whitespace lemmas -/

theorem all_dropWhile {p q : Char → Bool} (s : List Char) (h : s.all p = true) :
    (s.dropWhile q).all p = true := by
  induction s with
  | nil => simp
  | cons c t ih =>
    simp only [List.all_cons, Bool.and_eq_true] at h
    by_cases hq : q c = true
    · simpa [List.dropWhile, hq] using ih h.2
    · simpa [List.dropWhile, hq] using h

theorem rust_ws_not_quote {c : Char} (h : rust_is_whitespace c = true) : ¬ c = '"' := by
  intro he; subst he; simp [rust_is_whitespace] at h

theorem valid_unquoted_of_ws {c : Char} (h : rust_is_whitespace c = true) :
    is_valid_unquoted_str_char c = false := by
  simp [is_valid_unquoted_str_char, h]

theorem parse_str_fails_on_ws (s : List Char) (h : s.all rust_is_whitespace = true) :
    parse_str s = .err := by
  have hall : (ws0 s).all rust_is_whitespace = true := all_dropWhile s h
  unfold parse_str
  cases hw : ws0 s with
  | nil => simp
  | cons c rest =>
    rw [hw] at hall
    simp only [List.all_cons, Bool.and_eq_true] at hall
    simp [rust_ws_not_quote hall.1]

theorem parse_unquoted_str_fails_on_ws (s : List Char)
    (h : s.all rust_is_whitespace = true) : parse_unquoted_str s = .err := by
  have hall : (ws0 s).all rust_is_whitespace = true := all_dropWhile s h
  unfold parse_unquoted_str
  cases hw : ws0 s with
  | nil => simp
  | cons c rest =>
    rw [hw] at hall
    simp only [List.all_cons, Bool.and_eq_true] at hall
    simp [List.takeWhile_cons, valid_unquoted_of_ws hall.1]

/-- On whitespace-only input the pair parser fails: neither a quoted nor
an unquoted key can start. -/
theorem pairF_fails_on_ws (fuel : Nat) (s : List Char)
    (h : s.all rust_is_whitespace = true) :
    parse_map_key_value_pairF fuel s = .err := by
  cases fuel with
  | zero => rfl
  | succ n =>
    simp [parse_map_key_value_pairF, parse_str_fails_on_ws s h,
          parse_unquoted_str_fails_on_ws s h]

theorem kv_listF_fails_on_ws (fuel : Nat) (s : List Char)
    (h : s.all rust_is_whitespace = true) :
    parse_map_kv_listF fuel s = .err := by
  cases fuel with
  | zero => rfl
  | succ n =>
    simp [parse_map_kv_listF, pairF_fails_on_ws n (ws0 s) (all_dropWhile s h)]

theorem innerF_fails_on_ws (fuel : Nat) (s : List Char)
    (h : s.all rust_is_whitespace = true) :
    parse_map_innerF fuel s = .err := by
  cases fuel with
  | zero => rfl
  | succ n =>
    simp [parse_map_innerF, kv_listF_fails_on_ws n s h]

/-- `multispace0` absorbs any prepended ASCII-whitespace run. -/
theorem ws0_append (ws s : List Char) (h : ws.all isMS = true) :
    ws0 (ws ++ s) = ws0 s := by
  induction ws with
  | nil => rfl
  | cons c t ih =>
    simp only [List.all_cons, Bool.and_eq_true] at h
    simpa [ws0, List.dropWhile, h.1] using ih h.2

/-! ## Claim theorems -/

/-- C1: Repeated-key folding inside a single map body is the
position-sensitive walk described by the specification: for every parsed
pair sequence and every key, the value the code's folding pass stores
equals the stored value of the specification's left-to-right walk (first
occurrence stores; a second occurrence turns a non-List into a
two-element List; an incoming List meeting a stored List is wrapped into
an outer List exactly once per key, governed by the already-nested flag,
and later values are appended); and the body
x={1 1 1} x={2 2 2} x={3 3 3} folds to x bound to
List[List[1,1,1], List[2,2,2], List[3,3,3]]. -/
theorem C1_repeated_key_folding :
    (∀ (kvs : List (String × Value)) (k : String),
      hm_lookup (fold_kv_list kvs) k = (spec_fold kvs k).1) ∧
    parse_file "x={1 1 1} x={2 2 2} x={3 3 3}" =
      .ok (.map [("x", .list [.list [.int 1, .int 1, .int 1],
                              .list [.int 2, .int 2, .int 2],
                              .list [.int 3, .int 3, .int 3]])]) :=
  ⟨fold_refines_spec, rfl⟩

/-- C2 counterexample: the pair key value, with the key followed by its
value with only whitespace and no equals sign, does not parse — neither
as a single pair nor as a whole document — refuting the claim that the
separator may be absent. -/
theorem C2_eq_required_cex :
    parse_map_key_value_pair "key value" = PR.err ∧
    parse_file "key value" = .error "Parsing failed" :=
  ⟨rfl, rfl⟩

/-- C2 (amended): the equals sign is mandatory in a map pair.  The
separator parser succeeds exactly when the input, after optional
whitespace, starts with the equals character, consuming the whitespace
around it; on any other input it fails. -/
theorem C2_eq_required (s : List Char) :
    ((∀ t, ws0 s ≠ '=' :: t) → parse_map_key_value_separator s = .err) ∧
    (∀ t, ws0 s = '=' :: t → parse_map_key_value_separator s = .ok (ws0 t) ['=']) := by
  constructor
  · intro hno
    cases hw : ws0 s with
    | nil => simp [parse_map_key_value_separator, hw]
    | cons c rest =>
      have hc : ¬ c = '=' := fun he => hno rest (by rw [hw, he])
      simp [parse_map_key_value_separator, hw, hc]
  · intro t ht
    simp [parse_map_key_value_separator, ht]

/-- C2 witness: the separator accepts " = x" leaving "x", and fails on
"v". -/
theorem C2_eq_required_w :
    parse_map_key_value_separator " = x".data = .ok "x".data ['='] ∧
    parse_map_key_value_separator "v".data = .err := by
  constructor
  · exact (C2_eq_required " = x".data).2 " x".data rfl
  · refine (C2_eq_required "v".data).1 ?_
    intro t h
    injection h with h1
    exact absurd h1 (by decide)

/-- C3: for every input string, parse_file succeeds exactly when the map
body parses and the entire remainder is whitespace; every success is a
Map; and whitespace-only input (including the empty string) fails with
the fixed parse error, because the top-level map body requires at least
one pair. -/
theorem C3_parse_file_toplevel (s : String) :
    (∀ v, parse_file s = .ok v → ∃ m, v = Value.map m) ∧
    ((∃ v, parse_file s = .ok v) ↔
      ∃ rem hm, parse_map_inner s.data = .ok rem hm ∧ rem.all rust_is_whitespace = true) ∧
    (s.data.all rust_is_whitespace = true → parse_file s = .error "Parsing failed") := by
  refine ⟨?_, ?_, ?_⟩
  · intro v hv
    unfold parse_file at hv
    cases hmi : parse_map_inner s.data with
    | ok rem hm =>
      rw [hmi] at hv
      by_cases hws : rem.all rust_is_whitespace = true
      · simp only [hws, if_true] at hv
        exact ⟨hm, by injection hv with h; exact h.symm⟩
      · simp [hws] at hv
    | err => rw [hmi] at hv; simp at hv
    | fatal => rw [hmi] at hv; simp at hv
  · constructor
    · rintro ⟨v, hv⟩
      unfold parse_file at hv
      cases hmi : parse_map_inner s.data with
      | ok rem hm =>
        rw [hmi] at hv
        by_cases hws : rem.all rust_is_whitespace = true
        · exact ⟨rem, hm, rfl, hws⟩
        · simp [hws] at hv
      | err => rw [hmi] at hv; simp at hv
      | fatal => rw [hmi] at hv; simp at hv
    · rintro ⟨rem, hm, hmi, hws⟩
      exact ⟨.map hm, by simp [parse_file, hmi, hws]⟩
  · intro h
    have hf := innerF_fails_on_ws (file_fuel s.data) s.data h
    simp [parse_file, parse_map_inner, hf]

/-- C3 witness: a=1 parses to a Map, and a two-space document fails with
the fixed error. -/
theorem C3_parse_file_toplevel_w :
    (∃ m, (Value.map [("a", Value.int 1)]) = Value.map m) ∧
    parse_file "  " = .error "Parsing failed" :=
  ⟨(C3_parse_file_toplevel "a=1").1 (Value.map [("a", Value.int 1)]) rfl,
   (C3_parse_file_toplevel "  ").2.2 (by decide)⟩

/-- C4: the value alternation tries date before integer before float
with the nan guard: 2200.04.03 parses as the verbatim Str slice (not a
float), 123 parses as Int(123) (never a Float), and 1=nano_shipyard
parses as a Map binding "1" to Str("nano_shipyard"). -/
theorem C4_alternation_order :
    parse_value "2200.04.03" = .ok [] (.str "2200.04.03") ∧
    parse_value "123" = .ok [] (.int 123) ∧
    parse_file "1=nano_shipyard" = .ok (.map [("1", .str "nano_shipyard")]) :=
  ⟨rfl, rfl, rfl⟩

/-- C5 counterexample: parse_file does produce a Float NaN — the
document x=NaN parses successfully (the guard only matches the lowercase
literal, while Rust's float conversion is case-insensitive) and the
resulting tree contains a NaN Float, refuting the claim that no NaN ever
occurs in a successfully parsed tree. -/
theorem C5_nan_cex :
    parse_file "x=NaN" = .ok (.map [("x", .float "NaN")]) ∧
    has_nan_float (.map [("x", .float "NaN")]) = true :=
  ⟨rfl, rfl⟩

/-- C5 (amended): the float alternative fails whenever its input, after
leading whitespace, begins with the lowercase literal nan, so no Float
ever arises from a lowercase nan token; case variants such as NaN are
not blocked and do yield NaN floats. -/
theorem C5_nan_guard (s rest : List Char) (h : ws0 s = 'n' :: 'a' :: 'n' :: rest) :
    parse_float s = .err := by
  unfold parse_float
  rw [h]
  rfl

/-- C5 witness: the float parser rejects nano. -/
theorem C5_nan_guard_w : parse_float "nano".data = PR.err :=
  C5_nan_guard "nano".data "o".data rfl

/-- C6 counterexample: the date primitive accepts 1.1.1 but fails on the
same input with a single prepended space, refuting the claim that every
lexical primitive first consumes leading whitespace. -/
theorem C6_date_ws_cex :
    parse_date_str "1.1.1".data = .ok [] "1.1.1".data ∧
    parse_date_str (' ' :: "1.1.1".data) = .err :=
  ⟨rfl, rfl⟩

/-- C6 (amended): the integer, float, quoted-string and unquoted
identifier primitives first consume any run of leading ASCII whitespace:
prepending such a run leaves each parse result (acceptance, value and
remainder) unchanged.  The date primitive does not consume leading
whitespace. -/
theorem C6_leading_ws (ws s : List Char) (h : ws.all isMS = true) :
    parse_int (ws ++ s) = parse_int s ∧ parse_float (ws ++ s) = parse_float s ∧
    parse_str (ws ++ s) = parse_str s ∧
    parse_unquoted_str (ws ++ s) = parse_unquoted_str s := by
  have h0 := ws0_append ws s h
  refine ⟨?_, ?_, ?_, ?_⟩ <;>
    simp only [parse_int, parse_float, parse_str, parse_unquoted_str, h0]

/-- C6 witness: prepending one space to 1 leaves the four primitives'
results unchanged. -/
theorem C6_leading_ws_w :
    parse_int (' ' :: "1".data) = parse_int "1".data ∧
    parse_float (' ' :: "1".data) = parse_float "1".data ∧
    parse_str (' ' :: "1".data) = parse_str "1".data ∧
    parse_unquoted_str (' ' :: "1".data) = parse_unquoted_str "1".data :=
  C6_leading_ws [' '] "1".data (by decide)

/-- C7: quoted strings keep their raw contents: the fragment
quote backslash-quote Escaped backslash-quote quote parses in value
position to a Str holding the verbatim backslash-quote sequence, and a
document whose value is a quoted string ending in an escaped backslash
parses to a map with a single Str value. -/
theorem C7_raw_quoted_strings :
    parse_value "\"\\\"Escaped\\\"\"" = .ok [] (.str "\\\"Escaped\\\"") ∧
    parse_file "prefix=\"GATE \\\\\"" = .ok (.map [("prefix", .str "GATE \\\\")]) :=
  ⟨rfl, rfl⟩

/-- C8: in the skip-key form the inner key is discarded and the value is
attached to the outer key: the documented save fragment parses to the
expected two-entry map, the event_id value is the inner map, and the
stray scope key is absent from both the outer and the inner map. -/
theorem C8_skip_key :
    parse_file "expired=yes\nevent_id= scope={ type=none id=0 random={ 0 3991148998 } }" =
      .ok (.map [("expired", .str "yes"),
                 ("event_id", .map [("type", .str "none"), ("id", .int 0),
                                    ("random", .list [.int 0, .int 3991148998])])]) ∧
    hm_lookup [("expired", .str "yes"),
               ("event_id", .map [("type", .str "none"), ("id", .int 0),
                                  ("random", .list [.int 0, .int 3991148998])])] "scope" = none ∧
    hm_lookup [("type", Value.str "none"), ("id", Value.int 0),
               ("random", Value.list [.int 0, .int 3991148998])] "scope" = none :=
  ⟨rfl, rfl, rfl⟩

/-- C9 counterexample: when the meta document fails, parse_save returns
only the fixed message; the underlying error string of the document
parser (here the non-whitespace remainder) is discarded and does not
occur in the returned message, refuting the claim that the failure
carries the underlying error string. -/
theorem C9_error_msg_cex :
    parse_save ⟨"save.sav", "game1", "x=1 !!!", "a=1"⟩ =
      .error "Failed to parse save metadata" ∧
    parse_file "x=1 !!!" = .error "!!!" ∧
    occurs_in "!!!".data "Failed to parse save metadata".data = false :=
  ⟨rfl, rfl, rfl⟩

/-- C9 (amended): parse_save succeeds exactly when both documents parse;
a meta failure yields the fixed metadata message and a gamestate failure
the fixed gamestate message, in both cases discarding the underlying
error; on success the returned record holds exactly the two parsed trees
and the game id, so no partial result is ever returned. -/
theorem C9_save_orchestration (sf : SaveFile) :
    ((∃ r, parse_save sf = .ok r) ↔
      (∃ m, parse_file sf.meta = .ok m) ∧ (∃ g, parse_file sf.gamestate = .ok g)) ∧
    (∀ e, parse_file sf.meta = .error e →
      parse_save sf = .error "Failed to parse save metadata") ∧
    (∀ m e, parse_file sf.meta = .ok m → parse_file sf.gamestate = .error e →
      parse_save sf = .error "Failed to parse save gamestate") ∧
    (∀ r, parse_save sf = .ok r →
      parse_file sf.meta = .ok r.meta ∧ parse_file sf.gamestate = .ok r.gamestate ∧
        r.game_id = sf.game_id) := by
  unfold parse_save
  cases hm : parse_file sf.meta with
  | error e => simp [hm]
  | ok m =>
    cases hg : parse_file sf.gamestate with
    | error e => simp [hm, hg]
    | ok g => simp [hm, hg]

/-- C9 witness: a save whose meta parses but whose gamestate does not
fails with the fixed gamestate message. -/
theorem C9_save_orchestration_w :
    parse_save ⟨"f", "g", "a=1", "b"⟩ = .error "Failed to parse save gamestate" :=
  (C9_save_orchestration ⟨"f", "g", "a=1", "b"⟩).2.2.1
    (Value.map [("a", Value.int 1)]) "Parsing failed" rfl rfl

/-- C10: the skip-key tolerance discards at most one stray inner key:
on the doubly chained document k1=k2=k3=v the pair parser consumes only
up to the token k3 (binding k1 to Str k3) and leaves the remainder =v,
which the top-level rule rejects, so parse_file fails. -/
theorem C10_double_skip_key_fails :
    parse_map_key_value_pair "k1=k2=k3=v" = .ok "=v".data ("k1", .str "k3") ∧
    parse_file "k1=k2=k3=v" = .error "=v" :=
  ⟨rfl, rfl⟩

end StellarisParser
